import Mathlib

/-!
Verification of the time-series alignment and statistics engine and the
freshness-tiered cache of the stock-price aggregation service.

The embedding follows the JavaScript source:
* `utils/mathUtils.js` — statistics functions, `timeAlignPriceData`,
  `interpolateMissingData`, `findNearest`;
* `services/cacheService.js` — `createCacheKey`, `getCacheForType`,
  `getCachedData`, `setCachedData`.

JavaScript numbers are modelled as real numbers (`ℝ`); timestamps (the
result of `new Date(x).getTime()`, assumed well-formed per the input
contract) as natural numbers.  `Array.prototype.sort()` called with no
comparator — as the source does on the timestamp union — compares the
decimal string representations of its elements; that comparator is
embedded exactly (`jsStrLt`).  JavaScript `Map` (insertion order kept on
overwrite, last write wins), the truthiness tests the interpolation pass
applies to `findNearest` results (the epoch timestamp 0 is falsy, like the
`null` absence marker), and the in-place mutation performed by
`Array.prototype.sort()` inside `createCacheKey` are modelled explicitly.
The cache backend (`node-cache` with `useClones: false`, per the source
comment "Store references for better performance") stores and returns the
caller's reference unchanged; it is modelled as a store of heap addresses,
with an explicit heap for observing the value behind an address.  TTLs and
the expiry sweep are not modelled: the claims under verification concern
key construction, tier routing and reference semantics only.
-/

namespace StockApi

/-! ## Definitions

### The default JavaScript sort comparator on numbers

`[..].sort()` with no comparator converts elements to strings and compares
them by UTF-16 code units.  For natural numbers the string is the decimal
representation, so the comparison is lexicographic on decimal digit
sequences (most significant digit first).  `decDigits` computes that digit
sequence with structural fuel so that it reduces by `rfl`/`decide`. -/

/-- Decimal digits of `n`, most significant first, computed with fuel. -/
def decDigits (fuel : Nat) (n : Nat) : List Nat :=
  match fuel with
  | 0 => []
  | fuel + 1 => if n = 0 then [] else decDigits fuel (n / 10) ++ [n % 10]

/-- The decimal string of a natural number, as its digit list (the model of
JavaScript `String(n)` for the default sort comparator). -/
def numStr (n : Nat) : List Nat :=
  if n = 0 then [0] else decDigits (n + 1) n

/-- Lexicographic strict order on digit sequences: the model of the UTF-16
string comparison `"a" < "b"` restricted to decimal digit strings. -/
def digitsLt : List Nat → List Nat → Bool
  | [], [] => false
  | [], _ :: _ => true
  | _ :: _, [] => false
  | a :: as, b :: bs => if a < b then true else if b < a then false else digitsLt as bs

/-- `jsStrLt m n` holds when `String(m) < String(n)` under the default
JavaScript sort comparator. -/
def jsStrLt (m n : Nat) : Bool :=
  digitsLt (numStr m) (numStr n)

/-- Order relation used by the embedded `[..].sort()`: `m` may precede `n`
exactly when `String(n) < String(m)` fails. -/
def jsStrLe (m n : Nat) : Prop :=
  jsStrLt n m = false

instance : DecidableRel jsStrLe := fun m n => by
  unfold jsStrLe; infer_instance

/-- The embedded `Array.prototype.sort()` (no comparator) on timestamps. -/
def jsSort (l : List Nat) : List Nat :=
  List.insertionSort jsStrLe l

/-- Worker for `jsSetDedup`, carrying the set of elements already seen. -/
def setDedupGo : List Nat → List Nat → List Nat
  | [], _ => []
  | a :: rest, seen => if a ∈ seen then setDedupGo rest seen else a :: setDedupGo rest (a :: seen)

/-- The model of `[...new Set(l)]`: first occurrences, in insertion order. -/
def jsSetDedup (l : List Nat) : List Nat :=
  setDedupGo l []

/-! ### Price points and the timestamp lookup maps

A price-history entry is `{ price, lastUpdatedAt, interpolated? }`; the
source keys its lookup maps by `new Date(entry.lastUpdatedAt).getTime()`.
The embedding stores that epoch value directly in the `timestamp` field
(timestamps are well-formed by the input contract).  An absent
`interpolated` field is falsy in JavaScript and is modelled as `false`. -/

/-- A price-history entry.  `timestamp` models
`new Date(entry.lastUpdatedAt).getTime()`. -/
structure PricePoint where
  price : ℝ
  timestamp : Nat
  interpolated : Bool

/-- A JavaScript `Map` from timestamps to entries, as an association list in
insertion order.  `Map.prototype.set` keeps the original position of an
existing key and overwrites its value (last write wins). -/
def mapSet (m : List (Nat × PricePoint)) (k : Nat) (v : PricePoint) :
    List (Nat × PricePoint) :=
  if m.any (fun p => p.1 == k) then
    m.map (fun p => if p.1 == k then (k, v) else p)
  else
    m ++ [(k, v)]

/-- `Map.prototype.get`, returning the stored entry when the key is present. -/
def mapGet (m : List (Nat × PricePoint)) (k : Nat) : Option PricePoint :=
  (m.find? (fun p => p.1 == k)).map (fun p => p.2)

/-- `Map.prototype.has`. -/
def mapHas (m : List (Nat × PricePoint)) (k : Nat) : Bool :=
  (mapGet m k).isSome

/-- `Array.from(m.keys())`: the keys of the map, in insertion order. -/
def mapKeys (m : List (Nat × PricePoint)) : List Nat :=
  m.map (fun p => p.1)

/-- The `forEach` loop that fills a lookup map: for each entry, set
`timestamp -> entry` (overwriting earlier entries with the same timestamp). -/
def buildPriceMap (data : List PricePoint) : List (Nat × PricePoint) :=
  data.foldl (fun m entry => mapSet m entry.timestamp entry) []

/-- Invariant of any map built by the `forEach` fill: each stored pair maps a
timestamp to an entry carrying exactly that timestamp, and keys are unique. -/
def GoodMap (m : List (Nat × PricePoint)) : Prop :=
  (∀ p ∈ m, p.2.timestamp = p.1) ∧ (mapKeys m).Nodup

/-! ### The series aligner

`timeAlignPriceData` builds the two lookup maps, forms the sorted union of
distinct timestamps, returns the inputs unchanged when that union has at
most one element, emits the intersection pass when it yields at least two
aligned points, and otherwise falls back to `interpolateMissingData`. -/

/-- `findNearest(timestamps, target, dataMap, direction)`: scan outward from
`timestamps.indexOf(target)` (downward for `'before'`, upward otherwise) for
the first timestamp the map has data for.  When `target` is absent,
JavaScript `indexOf` yields `-1`, so the `'before'` scan starts below index 0
and returns null while the other scan starts at index 0 and covers the whole
array; both cases are embedded explicitly. -/
def findNearest (timestamps : List Nat) (target : Nat)
    (dataMap : List (Nat × PricePoint)) (direction : String) : Option Nat :=
  if direction = "before" then
    if target ∈ timestamps then
      ((timestamps.take (timestamps.indexOf target)).reverse).find?
        (fun u => mapHas dataMap u)
    else
      none
  else
    if target ∈ timestamps then
      (timestamps.drop (timestamps.indexOf target + 1)).find?
        (fun u => mapHas dataMap u)
    else
      timestamps.find? (fun u => mapHas dataMap u)

/-- The body of the `interpolateMissingData` loop for one series at one union
timestamp.  The source tests the `findNearest` results with JavaScript
truthiness — `if (before && after) ... else if (before) ... else if (after)`
— where `before`/`after` are either `null` or a numeric timestamp, so the
epoch timestamp 0 is falsy and counts as a missing bound exactly like
`null`.  The nested match spells out that truthiness table: exact point when
present; linear interpolation (flagged `interpolated`, stamped with the
current time) when both bounds exist and are non-zero; a single non-zero
bound used verbatim; otherwise no point at all. -/
noncomputable def alignPointAt (dataMap : List (Nat × PricePoint)) (allTimestamps : List Nat)
    (currentTime : Nat) : Option PricePoint :=
  match mapGet dataMap currentTime with
  | some p => some p
  | none =>
    match findNearest allTimestamps currentTime dataMap "before",
          findNearest allTimestamps currentTime dataMap "after" with
    | some b, some a =>
        if b ≠ 0 ∧ a ≠ 0 then
          match mapGet dataMap b, mapGet dataMap a with
          | some pb, some pa =>
              some { price := pb.price + (pa.price - pb.price) *
                       (((currentTime : ℝ) - (b : ℝ)) / ((a : ℝ) - (b : ℝ))),
                     timestamp := currentTime, interpolated := true }
          | _, _ => none
        else if b ≠ 0 then mapGet dataMap b
        else if a ≠ 0 then mapGet dataMap a
        else none
    | some b, none => if b ≠ 0 then mapGet dataMap b else none
    | none, some a => if a ≠ 0 then mapGet dataMap a else none
    | none, none => none

/-- The `for` loop of `interpolateMissingData` over the remaining timestamps;
the full sorted union stays fixed for the nearest-point searches.  Each
iteration appends at most one point to each result array, independently. -/
noncomputable def interpGo (allTimestamps : List Nat) (m1 m2 : List (Nat × PricePoint)) :
    List Nat → List PricePoint × List PricePoint
  | [] => ([], [])
  | t :: rest =>
    ((alignPointAt m1 allTimestamps t).toList ++ (interpGo allTimestamps m1 m2 rest).1,
     (alignPointAt m2 allTimestamps t).toList ++ (interpGo allTimestamps m1 m2 rest).2)

/-- `interpolateMissingData`: the interpolation pass over the full sorted
timestamp union.  The first two arguments are unused, exactly as in the
source. -/
noncomputable def interpolateMissingData (stockData1 stockData2 : List PricePoint)
    (allTimestamps : List Nat) (stock1Map stock2Map : List (Nat × PricePoint)) :
    List PricePoint × List PricePoint :=
  interpGo allTimestamps stock1Map stock2Map allTimestamps

/-- `[...new Set([...stock1Map.keys(), ...stock2Map.keys()])].sort()`: the
distinct timestamps of both maps, sorted by the comparator-free JavaScript
sort (decimal-string order). -/
def allTimestampsOf (stock1Map stock2Map : List (Nat × PricePoint)) : List Nat :=
  jsSort (jsSetDedup (mapKeys stock1Map ++ mapKeys stock2Map))

/-- `timeAlignPriceData(stockData1, stockData2)`. -/
noncomputable def timeAlignPriceData (stockData1 stockData2 : List PricePoint) :
    List PricePoint × List PricePoint :=
  let stock1Map := buildPriceMap stockData1
  let stock2Map := buildPriceMap stockData2
  let allTimestamps := allTimestampsOf stock1Map stock2Map
  if allTimestamps.length ≤ 1 then
    (stockData1, stockData2)
  else
    let aligned := allTimestamps.filter
      (fun t => mapHas stock1Map t && mapHas stock2Map t)
    let aligned1 := aligned.filterMap (fun t => mapGet stock1Map t)
    let aligned2 := aligned.filterMap (fun t => mapGet stock2Map t)
    if aligned1.length < 2 then
      interpolateMissingData stockData1 stockData2 allTimestamps stock1Map stock2Map
    else
      (aligned1, aligned2)

/-! ### The statistics library (`mathUtils.js`) -/

/-- `calculateMean`: 0 for empty input, else the arithmetic mean
(`reduce((sum, val) => sum + val, 0) / length`). -/
noncomputable def calculateMean (numbers : List ℝ) : ℝ :=
  if numbers.length = 0 then 0
  else (numbers.foldl (fun sum val => sum + val) 0) / (numbers.length : ℝ)

/-- `calculateMedian`: 0 for empty input; otherwise sorts a copy numerically
ascending and takes the middle element (odd length) or the mean of the two
central elements (even length).  The indices are in range, so `getD`'s
default is never read. -/
noncomputable def calculateMedian (numbers : List ℝ) : ℝ :=
  if numbers.length = 0 then 0
  else
    let sorted := List.insertionSort (fun a b : ℝ => a ≤ b) numbers
    let middleIndex := sorted.length / 2
    if sorted.length % 2 = 0 then
      (sorted.getD (middleIndex - 1) 0 + sorted.getD middleIndex 0) / 2
    else
      sorted.getD middleIndex 0

/-- `calculateStandardDeviation`: 0 for fewer than two points, else the
square root of the sample variance (`N − 1` denominator). -/
noncomputable def calculateStandardDeviation (numbers : List ℝ) : ℝ :=
  if numbers.length ≤ 1 then 0
  else
    let mean := calculateMean numbers
    let squaredDifferences := numbers.map (fun num => (num - mean) ^ 2)
    Real.sqrt ((squaredDifferences.foldl (fun sum val => sum + val) 0) /
      ((numbers.length : ℝ) - 1))

/-- `calculateCovariance`: 0 on length mismatch or fewer than two points,
else the sample covariance (`N − 1` denominator); the index loop summing
`(x[i] - xMean) * (y[i] - yMean)` is rendered with `zipWith` (the guard
makes the lengths equal). -/
noncomputable def calculateCovariance (xValues yValues : List ℝ) : ℝ :=
  if xValues.length ≠ yValues.length ∨ xValues.length ≤ 1 then 0
  else
    let xMean := calculateMean xValues
    let yMean := calculateMean yValues
    ((List.zipWith (fun x y => (x - xMean) * (y - yMean)) xValues yValues).foldl
      (fun sum val => sum + val) 0) / ((xValues.length : ℝ) - 1)

/-- `calculateCorrelation`: 0 on length mismatch, fewer than two points, or a
zero standard deviation on either side; otherwise `cov(X,Y) / (σX * σY)`. -/
noncomputable def calculateCorrelation (xValues yValues : List ℝ) : ℝ :=
  if xValues.length ≠ yValues.length ∨ xValues.length ≤ 1 then 0
  else
    let xStdDev := calculateStandardDeviation xValues
    let yStdDev := calculateStandardDeviation yValues
    if xStdDev = 0 ∨ yStdDev = 0 then 0
    else calculateCovariance xValues yValues / (xStdDev * yStdDev)

/-- `Math.min(...numbers)` for the non-empty lists reachable behind
`calculateAggregation`'s length guard. -/
noncomputable def jsMathMin (numbers : List ℝ) : ℝ :=
  match numbers with
  | [] => 0
  | a :: rest => rest.foldl (fun m x => min m x) a

/-- `Math.max(...numbers)` for the non-empty lists reachable behind
`calculateAggregation`'s length guard. -/
noncomputable def jsMathMax (numbers : List ℝ) : ℝ :=
  match numbers with
  | [] => 0
  | a :: rest => rest.foldl (fun m x => max m x) a

/-- `type.toLowerCase()`, as a character map (the aggregation kinds are
ASCII, for which JavaScript and `Char.toLower` agree). -/
def jsToLower (s : String) : String :=
  ⟨s.data.map Char.toLower⟩

/-- `calculateAggregation(numbers, type)`: null (`none`) for empty input;
otherwise dispatches on `type.toLowerCase()` with mean as the default. -/
noncomputable def calculateAggregation (numbers : List ℝ) (type : String) : Option ℝ :=
  if numbers.length = 0 then none
  else some (
    if jsToLower type = "average" then calculateMean numbers
    else if jsToLower type = "median" then calculateMedian numbers
    else if jsToLower type = "min" then jsMathMin numbers
    else if jsToLower type = "max" then jsMathMax numbers
    else calculateMean numbers)

/-! ### Specification-side statistics

These definitions follow the wording of the specification (§4.1): mean of
the empty sequence is 0; sample standard deviation and sample covariance
use the `N − 1` denominator and are 0 in the degenerate cases; correlation
is 0 whenever lengths mismatch, either side has at most one point, or
either standard deviation is zero, and `cov / (σX * σY)` otherwise.  They
are compared with the source-side functions in the refinement theorems. -/

/-- The spec's arithmetic mean (0 for the empty sequence). -/
noncomputable def specMean (xs : List ℝ) : ℝ :=
  if xs.length = 0 then 0 else xs.sum / (xs.length : ℝ)

/-- The spec's sample standard deviation (`N − 1` denominator, 0 for at most
one point). -/
noncomputable def specStddev (xs : List ℝ) : ℝ :=
  if xs.length ≤ 1 then 0
  else Real.sqrt (((xs.map (fun x => (x - specMean xs) ^ 2)).sum) / ((xs.length : ℝ) - 1))

/-- The spec's sample covariance (`N − 1` denominator, 0 on length mismatch
or at most one point). -/
noncomputable def specCovariance (xs ys : List ℝ) : ℝ :=
  if xs.length ≠ ys.length ∨ xs.length ≤ 1 then 0
  else ((List.zipWith (fun x y => (x - specMean xs) * (y - specMean ys)) xs ys).sum) /
    ((xs.length : ℝ) - 1)

/-- The spec's Pearson correlation: 0 in every degenerate case (length
mismatch, at most one point on either side, zero standard deviation on
either side), else `cov(X,Y) / (σX * σY)`. -/
noncomputable def specCorrelation (xs ys : List ℝ) : ℝ :=
  if xs.length ≠ ys.length ∨ xs.length ≤ 1 ∨ ys.length ≤ 1 ∨
      specStddev xs = 0 ∨ specStddev ys = 0 then 0
  else specCovariance xs ys / (specStddev xs * specStddev ys)

/-! ### The tiered cache (`cacheService.js`)

`node-cache` is instantiated with `useClones: false` ("Store references for
better performance"), so `set` stores the caller's reference and `get`
returns that same reference.  The model separates the store (key to heap
address) from the heap (address to value): mutating an object means
changing the heap at its address, which the cache neither observes nor
prevents. -/

/-- The three freshness tiers. -/
inductive CacheTier where
  | short
  | medium
  | long
deriving DecidableEq

/-- The request parameters that `createCacheKey` reads.  Each request kind
uses a subset of the fields. -/
structure RequestParams where
  ticker : String
  tickers : List String
  minutes : Int
  aggregation : String
deriving DecidableEq

/-- `Array.prototype.sort()` on an array of strings: ascending by the
code-unit string order (Lean's linear order on `String`; ticker symbols are
ASCII, for which the two coincide). -/
def jsSortStrings (l : List String) : List String :=
  List.insertionSort (fun a b : String => a ≤ b) l

/-- `JSON.stringify(params)`, for the default branch of `createCacheKey`
(reached by no request kind in the repository); field order follows the
structure. -/
def jsonStringify (params : RequestParams) : String :=
  "\x7b\"ticker\":\"" ++ params.ticker ++ "\",\"tickers\":[" ++
    String.intercalate "," (params.tickers.map (fun t => "\"" ++ t ++ "\"")) ++
    "],\"minutes\":" ++ toString params.minutes ++ ",\"aggregation\":\"" ++
    params.aggregation ++ "\"\x7d"

/-- `createCacheKey(type, params)`: the key string, together with the state
of `params` afterwards — for `'correlation'` the source calls
`params.tickers.sort()`, which sorts the caller's array **in place**, so the
returned params carry the sorted array. -/
def createCacheKey (type : String) (params : RequestParams) : String × RequestParams :=
  if type = "stockPrice" then
    ("stock:" ++ params.ticker ++ ":" ++ toString params.minutes ++ ":" ++
      params.aggregation, params)
  else if type = "stockHistory" then
    ("history:" ++ params.ticker ++ ":" ++ toString params.minutes, params)
  else if type = "correlation" then
    ("corr:" ++ String.intercalate "_" (jsSortStrings params.tickers) ++ ":" ++
      toString params.minutes, { params with tickers := jsSortStrings params.tickers })
  else
    (type ++ ":" ++ jsonStringify params, params)

/-- `getCacheForType(type, minutes)`: tier routing.  The `type` argument is
accepted but never read — routing depends on `minutes` alone. -/
def getCacheForType (_type : String) (minutes : Int) : CacheTier :=
  if minutes ≤ 5 then CacheTier.short
  else if minutes ≤ 30 then CacheTier.medium
  else CacheTier.long

/-- The three tier stores: key to stored reference (heap address). -/
structure CacheState where
  short : String → Option Nat
  medium : String → Option Nat
  long : String → Option Nat

/-- The cache with no entries. -/
def emptyCache : CacheState :=
  ⟨fun _ => none, fun _ => none, fun _ => none⟩

/-- The store of one tier. -/
def tierStore (st : CacheState) : CacheTier → (String → Option Nat)
  | CacheTier.short => st.short
  | CacheTier.medium => st.medium
  | CacheTier.long => st.long

/-- Overwrite one key of one tier (`cache.set(key, data)` with
`useClones: false`: the stored value is the caller's reference). -/
def storeSet (st : CacheState) (tier : CacheTier) (key : String) (dataRef : Nat) :
    CacheState :=
  match tier with
  | CacheTier.short => { st with short := fun q => if q = key then some dataRef else st.short q }
  | CacheTier.medium => { st with medium := fun q => if q = key then some dataRef else st.medium q }
  | CacheTier.long => { st with long := fun q => if q = key then some dataRef else st.long q }

/-- `getCachedData(type, params)`: build the key (mutating `params` for
correlation requests), select the tier from `params.minutes`, return the
stored reference.  The result pairs the returned reference with the
caller-visible state of `params`. -/
def getCachedData (type : String) (params : RequestParams) (st : CacheState) :
    Option Nat × RequestParams :=
  ((tierStore st (getCacheForType type (createCacheKey type params).2.minutes))
      (createCacheKey type params).1,
    (createCacheKey type params).2)

/-- `setCachedData(type, params, data)`: build the key (mutating `params`
for correlation requests), select the tier, store the caller's reference.
The TTL argument only affects expiry, which is outside this model. -/
def setCachedData (type : String) (params : RequestParams) (dataRef : Nat)
    (st : CacheState) : CacheState × RequestParams :=
  (storeSet st (getCacheForType type (createCacheKey type params).2.minutes)
      (createCacheKey type params).1 dataRef,
    (createCacheKey type params).2)

/-- The value a caller observes through a reference returned by
`getCachedData`, given the current heap. -/
def observedValue {V : Type} (heap : Nat → V) (r : Option Nat × RequestParams) :
    Option V :=
  r.1.map heap

/-- A non-interpolated price point, as upstream data provides it (used as
concrete input in several theorems). -/
def rawPoint (t : Nat) (pr : ℝ) : PricePoint :=
  ⟨pr, t, false⟩

/-! ## Supporting lemmas -/

theorem mem_setDedupGo (l : List Nat) :
    ∀ seen a, a ∈ setDedupGo l seen ↔ a ∈ l ∧ a ∉ seen := by
  induction l with
  | nil => intro seen a; simp [setDedupGo]
  | cons b rest ih =>
      intro seen a
      by_cases hb : b ∈ seen
      · simp only [setDedupGo, if_pos hb, ih]
        constructor
        · rintro ⟨h1, h2⟩; exact ⟨List.mem_cons_of_mem _ h1, h2⟩
        · rintro ⟨h1, h2⟩
          rcases List.mem_cons.mp h1 with rfl | h1
          · exact absurd hb h2
          · exact ⟨h1, h2⟩
      · simp only [setDedupGo, if_neg hb, List.mem_cons, ih]
        constructor
        · rintro (rfl | ⟨h1, h2⟩)
          · exact ⟨Or.inl rfl, hb⟩
          · refine ⟨Or.inr h1, fun hs => h2 ?_⟩
            simp [List.mem_cons, hs]
        · rintro ⟨rfl | h1, h2⟩
          · exact Or.inl rfl
          · by_cases hab : a = b
            · exact Or.inl hab
            · refine Or.inr ⟨h1, fun hs => ?_⟩
              rcases hs with h | h
              · exact hab h
              · exact h2 h

theorem nodup_setDedupGo (l : List Nat) : ∀ seen, (setDedupGo l seen).Nodup := by
  induction l with
  | nil => intro seen; simp [setDedupGo]
  | cons b rest ih =>
      intro seen
      by_cases hb : b ∈ seen
      · simpa [setDedupGo, if_pos hb] using ih seen
      · simp only [setDedupGo, if_neg hb]
        refine List.nodup_cons.mpr ⟨?_, ih (b :: seen)⟩
        intro hbmem
        exact ((mem_setDedupGo rest (b :: seen) b).mp hbmem).2 (List.mem_cons_self _ _)

theorem mem_jsSetDedup {l : List Nat} {a : Nat} : a ∈ jsSetDedup l ↔ a ∈ l := by
  simp [jsSetDedup, mem_setDedupGo]

theorem nodup_jsSetDedup (l : List Nat) : (jsSetDedup l).Nodup :=
  nodup_setDedupGo l []

theorem mem_jsSort {l : List Nat} {a : Nat} : a ∈ jsSort l ↔ a ∈ l :=
  List.Perm.mem_iff (List.perm_insertionSort _ _)

theorem nodup_jsSort {l : List Nat} (h : l.Nodup) : (jsSort l).Nodup :=
  ((List.perm_insertionSort jsStrLe l).nodup_iff).mpr h

theorem goodMap_mapSet {m : List (Nat × PricePoint)} (hm : GoodMap m)
    {k : Nat} {v : PricePoint} (hv : v.timestamp = k) : GoodMap (mapSet m k v) := by
  obtain ⟨h1, h2⟩ := hm
  unfold mapSet
  split
  · constructor
    · intro p hp
      rcases List.mem_map.mp hp with ⟨q, hq, hqe⟩
      by_cases hqk : q.1 = k
      · simp only [hqk, beq_self_eq_true, if_true] at hqe
        rw [← hqe]; exact hv
      · have hb : (q.1 == k) = false := by simpa using hqk
        simp only [hb, Bool.false_eq_true, if_false] at hqe
        rw [← hqe]; exact h1 q hq
    · have hk : mapKeys (m.map (fun p => if p.1 == k then (k, v) else p)) = mapKeys m := by
        unfold mapKeys
        rw [List.map_map]
        apply List.map_congr_left
        intro p _
        by_cases hqk : p.1 = k
        · simp [Function.comp, hqk]
        · simp [Function.comp, hqk]
      rw [hk]; exact h2
  · next hmem =>
    constructor
    · intro p hp
      rcases List.mem_append.mp hp with hp | hp
      · exact h1 p hp
      · rcases List.mem_singleton.mp hp with rfl; exact hv
    · unfold mapKeys
      rw [List.map_append]
      simp only [List.map_cons, List.map_nil]
      apply List.Nodup.append h2 (List.nodup_singleton k)
      intro a ha hak
      rcases List.mem_singleton.mp hak with rfl
      rcases List.mem_map.mp ha with ⟨q, hq, rfl⟩
      exact hmem (List.any_eq_true.mpr ⟨q, hq, beq_self_eq_true _⟩)

theorem goodMap_buildPriceMap (data : List PricePoint) : GoodMap (buildPriceMap data) := by
  unfold buildPriceMap
  suffices h : ∀ m, GoodMap m →
      GoodMap (data.foldl (fun m entry => mapSet m entry.timestamp entry) m) by
    exact h [] ⟨by simp, by simp [mapKeys]⟩
  induction data with
  | nil => intro m hm; simpa using hm
  | cons e rest ih =>
      intro m hm
      simp only [List.foldl_cons]
      exact ih _ (goodMap_mapSet hm rfl)

theorem mapGet_timestamp {m : List (Nat × PricePoint)} (hm : GoodMap m)
    {k : Nat} {p : PricePoint} (h : mapGet m k = some p) : p.timestamp = k := by
  unfold mapGet at h
  rcases Option.map_eq_some'.mp h with ⟨q, hq, rfl⟩
  have hqm := List.mem_of_find?_eq_some hq
  have hqk : q.1 = k := by simpa using List.find?_some hq
  rw [hm.1 q hqm, hqk]

theorem mapHas_iff_mem_keys {m : List (Nat × PricePoint)} {k : Nat} :
    mapHas m k = true ↔ k ∈ mapKeys m := by
  unfold mapHas mapGet mapKeys
  rw [Option.isSome_map']
  constructor
  · intro h
    rcases Option.isSome_iff_exists.mp h with ⟨q, hq⟩
    exact List.mem_map.mpr ⟨q, List.mem_of_find?_eq_some hq,
      by simpa using List.find?_some hq⟩
  · intro h
    rcases List.mem_map.mp h with ⟨q, hq, rfl⟩
    exact List.find?_isSome.mpr ⟨q, hq, beq_self_eq_true _⟩

theorem mapGet_isSome_of_has {m : List (Nat × PricePoint)} {k : Nat}
    (h : mapHas m k = true) : ∃ p, mapGet m k = some p := by
  unfold mapHas at h
  exact Option.isSome_iff_exists.mp h

theorem interpGo_eq_filterMap (allTs : List Nat) (m1 m2 : List (Nat × PricePoint)) :
    ∀ l : List Nat,
      interpGo allTs m1 m2 l =
        (l.filterMap (alignPointAt m1 allTs), l.filterMap (alignPointAt m2 allTs)) := by
  intro l
  induction l with
  | nil => simp [interpGo]
  | cons t rest ih =>
      rw [interpGo, ih]
      cases h1 : alignPointAt m1 allTs t <;> cases h2 : alignPointAt m2 allTs t <;>
        simp [List.filterMap_cons, h1, h2]

theorem findNearest_has {ts : List Nat} {t b : Nat} {m : List (Nat × PricePoint)}
    {d : String} (h : findNearest ts t m d = some b) :
    mapHas m b = true ∧ b ∈ ts := by
  unfold findNearest at h
  split_ifs at h with hd hmem hmem
  · refine ⟨List.find?_some h, ?_⟩
    exact List.mem_of_mem_take (List.mem_reverse.mp (List.mem_of_find?_eq_some h))
  · refine ⟨List.find?_some h, ?_⟩
    exact List.mem_of_mem_drop (List.mem_of_find?_eq_some h)
  · exact ⟨List.find?_some h, List.mem_of_find?_eq_some h⟩

theorem mem_take_or_drop_of_ne {ts : List Nat} {t u : Nat}
    (ht : t ∈ ts) (hu : u ∈ ts) (hne : u ≠ t) :
    u ∈ ts.take (ts.indexOf t) ∨ u ∈ ts.drop (ts.indexOf t + 1) := by
  have hidx : ts.indexOf t < ts.length := List.indexOf_lt_length.mpr ht
  have hdecomp : ts = ts.take (ts.indexOf t) ++ t :: ts.drop (ts.indexOf t + 1) := by
    conv_lhs => rw [← List.take_append_drop (ts.indexOf t) ts]
    rw [List.drop_eq_getElem_cons hidx, List.getElem_indexOf hidx]
  rw [hdecomp] at hu
  rcases List.mem_append.mp hu with hu | hu
  · exact Or.inl hu
  · rcases List.mem_cons.mp hu with rfl | hu
    · exact absurd rfl hne
    · exact Or.inr hu

theorem length_filterMap_of_isSome {α β : Type} (f : α → Option β) :
    ∀ l : List α, (∀ a ∈ l, (f a).isSome = true) → (l.filterMap f).length = l.length := by
  intro l
  induction l with
  | nil => intro _; rfl
  | cons a rest ih =>
      intro h
      obtain ⟨b, hb⟩ := Option.isSome_iff_exists.mp (h a (List.mem_cons_self _ _))
      rw [List.filterMap_cons, hb, List.length_cons, List.length_cons,
        ih (fun x hx => h x (List.mem_cons_of_mem _ hx))]

theorem map_timestamp_filterMap_get {m : List (Nat × PricePoint)} (hm : GoodMap m) :
    ∀ l : List Nat, (∀ t ∈ l, mapHas m t = true) →
      (l.filterMap (fun t => mapGet m t)).map (fun p => p.timestamp) = l := by
  intro l
  induction l with
  | nil => intro _; rfl
  | cons t rest ih =>
      intro h
      obtain ⟨p, hp⟩ := mapGet_isSome_of_has (h t (List.mem_cons_self _ _))
      rw [List.filterMap_cons, hp, List.map_cons, mapGet_timestamp hm hp,
        ih (fun x hx => h x (List.mem_cons_of_mem _ hx))]

theorem mapSet_ne_nil (m : List (Nat × PricePoint)) (k : Nat) (v : PricePoint) :
    mapSet m k v ≠ [] := by
  unfold mapSet
  split
  · next hmem =>
    intro hnil
    rcases List.any_eq_true.mp hmem with ⟨q, hq, _⟩
    rw [List.map_eq_nil_iff] at hnil
    rw [hnil] at hq
    cases hq
  · intro hnil
    rcases List.append_eq_nil.mp hnil with ⟨_, h⟩
    cases h

theorem buildPriceMap_ne_nil {data : List PricePoint} (h : data ≠ []) :
    buildPriceMap data ≠ [] := by
  unfold buildPriceMap
  cases data with
  | nil => exact absurd rfl h
  | cons e rest =>
      rw [List.foldl_cons]
      suffices hgen : ∀ (l : List PricePoint) (m : List (Nat × PricePoint)), m ≠ [] →
          l.foldl (fun m entry => mapSet m entry.timestamp entry) m ≠ [] by
        exact hgen rest _ (mapSet_ne_nil [] e.timestamp e)
      intro l
      induction l with
      | nil => intro m hm; simpa using hm
      | cons x xs ih =>
          intro m _
          rw [List.foldl_cons]
          exact ih _ (mapSet_ne_nil m x.timestamp x)

theorem mem_allTimestampsOf_left {m1 m2 : List (Nat × PricePoint)} {k : Nat}
    (h : k ∈ mapKeys m1) : k ∈ allTimestampsOf m1 m2 :=
  mem_jsSort.mpr (mem_jsSetDedup.mpr (List.mem_append.mpr (Or.inl h)))

theorem mem_allTimestampsOf_right {m1 m2 : List (Nat × PricePoint)} {k : Nat}
    (h : k ∈ mapKeys m2) : k ∈ allTimestampsOf m1 m2 :=
  mem_jsSort.mpr (mem_jsSetDedup.mpr (List.mem_append.mpr (Or.inr h)))

theorem nodup_allTimestampsOf (m1 m2 : List (Nat × PricePoint)) :
    (allTimestampsOf m1 m2).Nodup :=
  nodup_jsSort (nodup_jsSetDedup _)

theorem exists_has_left {data : List PricePoint} (h : data ≠ [])
    (m2 : List (Nat × PricePoint)) :
    ∃ u ∈ allTimestampsOf (buildPriceMap data) m2, mapHas (buildPriceMap data) u = true := by
  have hne := buildPriceMap_ne_nil h
  cases hkeys : buildPriceMap data with
  | nil => exact absurd hkeys hne
  | cons q rest =>
      refine ⟨q.1, mem_allTimestampsOf_left ?_, ?_⟩
      · exact List.mem_map.mpr ⟨q, List.mem_cons_self _ _, rfl⟩
      · rw [mapHas_iff_mem_keys]
        exact List.mem_map.mpr ⟨q, List.mem_cons_self _ _, rfl⟩

theorem exists_has_right {data : List PricePoint} (h : data ≠ [])
    (m1 : List (Nat × PricePoint)) :
    ∃ u ∈ allTimestampsOf m1 (buildPriceMap data), mapHas (buildPriceMap data) u = true := by
  have hne := buildPriceMap_ne_nil h
  cases hkeys : buildPriceMap data with
  | nil => exact absurd hkeys hne
  | cons q rest =>
      refine ⟨q.1, mem_allTimestampsOf_right ?_, ?_⟩
      · exact List.mem_map.mpr ⟨q, List.mem_cons_self _ _, rfl⟩
      · rw [mapHas_iff_mem_keys]
        exact List.mem_map.mpr ⟨q, List.mem_cons_self _ _, rfl⟩

theorem foldl_add_eq_sum : ∀ (l : List ℝ) (a : ℝ),
    l.foldl (fun sum val => sum + val) a = a + l.sum := by
  intro l
  induction l with
  | nil => intro a; simp
  | cons x xs ih => intro a; rw [List.foldl_cons, ih, List.sum_cons]; ring

theorem calculateMean_eq_specMean (xs : List ℝ) : calculateMean xs = specMean xs := by
  unfold calculateMean specMean
  split
  · rfl
  · rw [foldl_add_eq_sum, zero_add]

theorem calculateStandardDeviation_eq_specStddev (xs : List ℝ) :
    calculateStandardDeviation xs = specStddev xs := by
  unfold calculateStandardDeviation specStddev
  split
  · rfl
  · simp only [foldl_add_eq_sum, zero_add, calculateMean_eq_specMean]

theorem calculateCovariance_eq_specCovariance (xs ys : List ℝ) :
    calculateCovariance xs ys = specCovariance xs ys := by
  unfold calculateCovariance specCovariance
  split
  · rfl
  · simp only [foldl_add_eq_sum, zero_add, calculateMean_eq_specMean]

theorem jsSortStrings_idem (l : List String) :
    jsSortStrings (jsSortStrings l) = jsSortStrings l := by
  unfold jsSortStrings
  exact List.Sorted.insertionSort_eq (List.sorted_insertionSort _ l)

theorem jsSortStrings_pair_comm (A B : String) :
    jsSortStrings [A, B] = jsSortStrings [B, A] := by
  unfold jsSortStrings
  rcases le_total A B with h | h
  · by_cases h2 : B ≤ A
    · have : A = B := le_antisymm h h2
      rw [this]
    · simp [List.insertionSort, List.orderedInsert, h, h2]
  · by_cases h2 : A ≤ B
    · have : A = B := le_antisymm h2 h
      rw [this]
    · simp [List.insertionSort, List.orderedInsert, h, h2]

theorem jsSortStrings_pair (A B : String) :
    jsSortStrings [A, B] = if A ≤ B then [A, B] else [B, A] := by
  simp [jsSortStrings, List.insertionSort, List.orderedInsert]

theorem createCacheKey_idem (type : String) (params : RequestParams) :
    createCacheKey type (createCacheKey type params).2 = createCacheKey type params := by
  unfold createCacheKey
  by_cases t1 : type = "stockPrice"
  · simp [t1]
  · by_cases t2 : type = "stockHistory"
    · simp [t1, t2]
    · by_cases t3 : type = "correlation"
      · simp [t1, t2, t3, jsSortStrings_idem]
      · simp [t1, t2, t3]

theorem tierStore_storeSet_same (st : CacheState) (tier : CacheTier) (key : String)
    (a : Nat) : tierStore (storeSet st tier key a) tier key = some a := by
  cases tier <;> simp [storeSet, tierStore]

/-! ## Claim theorems -/

/-- C6: `calculateCorrelation` returns 0 whenever the lengths differ, either
side has at most one point, or either sample standard deviation is zero; in
every other case it returns the sample covariance divided by the product of
the sample standard deviations (all statistics with the `N − 1`
denominator).  Formally: it coincides with the spec-side `specCorrelation`
on every pair of inputs. -/
theorem calculateCorrelation_matches_spec (xs ys : List ℝ) :
    calculateCorrelation xs ys = specCorrelation xs ys := by
  unfold calculateCorrelation specCorrelation
  by_cases h1 : xs.length ≠ ys.length ∨ xs.length ≤ 1
  · rw [if_pos h1, if_pos (by tauto)]
  · rw [if_neg h1]
    push_neg at h1
    obtain ⟨hlen, hgt⟩ := h1
    show (if calculateStandardDeviation xs = 0 ∨ calculateStandardDeviation ys = 0 then 0
          else calculateCovariance xs ys /
            (calculateStandardDeviation xs * calculateStandardDeviation ys)) = _
    rw [calculateStandardDeviation_eq_specStddev, calculateStandardDeviation_eq_specStddev,
      calculateCovariance_eq_specCovariance]
    by_cases h2 : specStddev xs = 0 ∨ specStddev ys = 0
    · rw [if_pos h2, if_pos (by tauto)]
    · push_neg at h2
      rw [if_neg (by tauto), if_neg (by push_neg; exact ⟨hlen, by omega, by omega, h2.1, h2.2⟩)]

/-- C7 counterexample: on the empty sequence, `calculateAggregation` with
`'average'` returns null (`none`) while `calculateMean` returns 0, so the
two do not coincide there. -/
theorem aggregate_average_empty_counterexample :
    calculateAggregation ([] : List ℝ) "average" = none ∧
    calculateMean ([] : List ℝ) = 0 ∧
    calculateAggregation ([] : List ℝ) "average" ≠ some (calculateMean ([] : List ℝ)) := by
  refine ⟨rfl, rfl, ?_⟩
  intro h
  rw [show calculateAggregation ([] : List ℝ) "average" = none from rfl] at h
  exact Option.noConfusion h

/-- C7 amended: for every non-empty sequence, `calculateAggregation` with
`'average'` returns exactly `calculateMean`; on the empty sequence it
returns null while the mean is 0. -/
theorem aggregate_average_eq_mean (xs : List ℝ) (h : xs ≠ []) :
    calculateAggregation xs "average" = some (calculateMean xs) := by
  unfold calculateAggregation
  rw [if_neg (by simpa [List.length_eq_zero] using h), if_pos (by decide)]

/-- C7 amended, witness at `xs = [1, 2]`. -/
theorem aggregate_average_eq_mean_witness :
    (([(1 : ℝ), 2] : List ℝ) ≠ []) ∧
    calculateAggregation [(1 : ℝ), 2] "average" = some (calculateMean [(1 : ℝ), 2]) :=
  ⟨by simp, aggregate_average_eq_mean [(1 : ℝ), 2] (by simp)⟩

/-- C8: tier routing is a function of the minutes window alone — at most 5
minutes routes short, more than 5 and at most 30 routes medium, more than 30
routes long — and is independent of the request type argument. -/
theorem tier_routing_pure_in_minutes (type : String) (minutes : Int) :
    (minutes ≤ 5 → getCacheForType type minutes = CacheTier.short) ∧
    (5 < minutes → minutes ≤ 30 → getCacheForType type minutes = CacheTier.medium) ∧
    (30 < minutes → getCacheForType type minutes = CacheTier.long) ∧
    (∀ other : String, getCacheForType other minutes = getCacheForType type minutes) := by
  refine ⟨fun h => ?_, fun h5 h30 => ?_, fun h => ?_, fun other => rfl⟩
  · unfold getCacheForType; rw [if_pos h]
  · unfold getCacheForType; rw [if_neg (by omega), if_pos h30]
  · unfold getCacheForType; rw [if_neg (by omega), if_neg (by omega)]

/-- C8 witness: minutes 5, 30 and 31 route short, medium and long. -/
theorem tier_routing_pure_in_minutes_witness :
    ((5 : Int) ≤ 5 ∧ getCacheForType "stockPrice" 5 = CacheTier.short) ∧
    ((5 : Int) < 30 ∧ (30 : Int) ≤ 30 ∧ getCacheForType "correlation" 30 = CacheTier.medium) ∧
    ((30 : Int) < 31 ∧ getCacheForType "stockHistory" 31 = CacheTier.long) :=
  ⟨⟨by decide, (tier_routing_pure_in_minutes "stockPrice" 5).1 (by decide)⟩,
   ⟨by decide, by decide,
     (tier_routing_pure_in_minutes "correlation" 30).2.1 (by decide) (by decide)⟩,
   ⟨by decide, (tier_routing_pure_in_minutes "stockHistory" 31).2.2.1 (by decide)⟩⟩

/-- C9: the correlation cache key is symmetric in the order of the two
ticker identifiers, for every pair of tickers and every minutes value. -/
theorem correlation_cache_key_symmetric (A B tick agg : String) (m : Int) :
    (createCacheKey "correlation" ⟨tick, [A, B], m, agg⟩).1 =
    (createCacheKey "correlation" ⟨tick, [B, A], m, agg⟩).1 := by
  show "corr:" ++ String.intercalate "_" (jsSortStrings [A, B]) ++ ":" ++ toString m =
      "corr:" ++ String.intercalate "_" (jsSortStrings [B, A]) ++ ":" ++ toString m
  rw [jsSortStrings_pair_comm]

/-- C10: `createCacheKey('correlation', params)` sorts the caller's tickers
array in place: the params object coming back from any correlation cache
get or put carries the sorted array, so with the unsorted input
`['MSFT', 'AAPL']` later indexing observes `['AAPL', 'MSFT']`. -/
theorem correlation_key_sorts_tickers_in_place :
    (∀ params : RequestParams,
      ((createCacheKey "correlation" params).2).tickers = jsSortStrings params.tickers) ∧
    (["MSFT", "AAPL"] ≠ jsSortStrings ["MSFT", "AAPL"]) ∧
    ((getCachedData "correlation" ⟨"", ["MSFT", "AAPL"], 60, ""⟩ emptyCache).2.tickers
        = ["AAPL", "MSFT"]) ∧
    ((setCachedData "correlation" ⟨"", ["MSFT", "AAPL"], 60, ""⟩ 7 emptyCache).2.tickers
        = ["AAPL", "MSFT"]) ∧
    ((getCachedData "correlation" ⟨"", ["MSFT", "AAPL"], 60, ""⟩ emptyCache).2.tickers.getD 0 ""
        = "AAPL") := by
  have hsort : jsSortStrings ["MSFT", "AAPL"] = ["AAPL", "MSFT"] := by
    rw [jsSortStrings_pair, if_neg (by rw [String.le_iff_toList_le]; decide)]
  refine ⟨fun params => rfl, ?_, ?_, ?_, ?_⟩
  · rw [hsort]; decide
  · show jsSortStrings ["MSFT", "AAPL"] = ["AAPL", "MSFT"]
    exact hsort
  · show jsSortStrings ["MSFT", "AAPL"] = ["AAPL", "MSFT"]
    exact hsort
  · show (jsSortStrings ["MSFT", "AAPL"]).getD 0 "" = "AAPL"
    rw [hsort]; rfl

/-- C3 counterexample: the cache stores references (`useClones: false`), so
mutating the object after it was passed to `setCachedData` (updating the
heap at its address from 42 to 99) changes the value a later
`getCachedData` for the same key observes. -/
theorem cache_shared_reference_counterexample :
    observedValue (fun _ : Nat => (42 : Nat))
      (getCachedData "stockPrice" ⟨"AAPL", [], 5, "average"⟩
        (setCachedData "stockPrice" ⟨"AAPL", [], 5, "average"⟩ 7 emptyCache).1) = some 42 ∧
    observedValue (Function.update (fun _ : Nat => (42 : Nat)) 7 99)
      (getCachedData "stockPrice" ⟨"AAPL", [], 5, "average"⟩
        (setCachedData "stockPrice" ⟨"AAPL", [], 5, "average"⟩ 7 emptyCache).1) = some 99 ∧
    (some (99 : Nat) ≠ some 42) := by
  refine ⟨by decide, by decide, by decide⟩

/-- C3 amended: callers do not receive copies — `getCachedData` returns the
very reference stored by `setCachedData`, so the value observed through it
is whatever the current heap holds at that address, and any mutation of the
object is visible to later reads. -/
theorem cache_returns_live_reference (type : String) (params : RequestParams)
    (dataRef : Nat) (st : CacheState) {V : Type} (heap : Nat → V) :
    (getCachedData type (setCachedData type params dataRef st).2
        (setCachedData type params dataRef st).1).1 = some dataRef ∧
    observedValue heap
      (getCachedData type (setCachedData type params dataRef st).2
        (setCachedData type params dataRef st).1) = some (heap dataRef) := by
  have hkey := createCacheKey_idem type params
  have h1 : (getCachedData type (setCachedData type params dataRef st).2
      (setCachedData type params dataRef st).1).1 = some dataRef := by
    simp only [getCachedData, setCachedData]
    rw [hkey]
    exact tierStore_storeSet_same st _ _ dataRef
  refine ⟨h1, ?_⟩
  unfold observedValue
  rw [h1]
  rfl

/-- C1, evaluated at the failing input (claim right, code slipped): with both
series sampled at epoch instants 5 and 10, the comparator-free sort orders
the union by decimal strings as `[10, 5]` — `"10" < "5"` — so the aligned
outputs are not in ascending numeric timestamp order, although the
surrounding code (`findNearest`, the interpolation ratio) assumes they are. -/
theorem union_not_numerically_sorted_on_failing_input :
    allTimestampsOf (buildPriceMap [rawPoint 5 1, rawPoint 10 2])
        (buildPriceMap [rawPoint 5 1, rawPoint 10 2]) = [10, 5] ∧
    (timeAlignPriceData [rawPoint 5 1, rawPoint 10 2]
        [rawPoint 5 1, rawPoint 10 2]).1.map (fun p => p.timestamp) = [10, 5] ∧
    ¬ List.Sorted (fun a b => a ≤ b) [10, 5] :=
  ⟨rfl, rfl, by decide⟩

/-- C2, evaluated at the failing input (the spec guarantee is violated by
the code): with `stockData1 = [(t=0)]` and `stockData2 = [(t=1000),
(t=2000)]` — both non-empty, union of 3 distinct timestamps, so the
degenerate branch is not taken — the interpolation pass finds, at union
timestamps 1000 and 2000, that series 1's only bound is the timestamp 0,
which the truthiness tests treat as absent; nothing is pushed for series 1
there, and the outputs have lengths 1 and 3 instead of being equal (and are
not the unmodified originals either). -/
theorem timeAlign_unequal_lengths_at_epoch_zero :
    (([rawPoint 0 1] : List PricePoint) ≠ []) ∧
    (([rawPoint 1000 2, rawPoint 2000 3] : List PricePoint) ≠ []) ∧
    2 ≤ (allTimestampsOf (buildPriceMap [rawPoint 0 1])
        (buildPriceMap [rawPoint 1000 2, rawPoint 2000 3])).length ∧
    (timeAlignPriceData [rawPoint 0 1] [rawPoint 1000 2, rawPoint 2000 3]).1.length = 1 ∧
    (timeAlignPriceData [rawPoint 0 1] [rawPoint 1000 2, rawPoint 2000 3]).2.length = 3 ∧
    timeAlignPriceData [rawPoint 0 1] [rawPoint 1000 2, rawPoint 2000 3] ≠
      ([rawPoint 0 1], [rawPoint 1000 2, rawPoint 2000 3]) := by
  refine ⟨by simp, by simp, by decide, rfl, rfl, ?_⟩
  intro h
  have h2 : (timeAlignPriceData [rawPoint 0 1] [rawPoint 1000 2, rawPoint 2000 3]).2.length =
      ([rawPoint 1000 2, rawPoint 2000 3] : List PricePoint).length := by rw [h]
  rw [show (timeAlignPriceData [rawPoint 0 1] [rawPoint 1000 2, rawPoint 2000 3]).2.length = 3
    from rfl] at h2
  exact absurd h2 (by decide)

/-- C4 counterexample: with the first series empty and the second holding
real points at 10 and 20, every union timestamp has neither an earlier nor a
later real point for series 1 — yet those timestamps are NOT omitted from
both outputs: the second output still carries both points, only the first
output is empty. -/
theorem interpolation_omission_one_sided_counterexample :
    mapHas (buildPriceMap []) 10 = false ∧
    findNearest (allTimestampsOf (buildPriceMap [])
        (buildPriceMap [rawPoint 10 1, rawPoint 20 2])) 10 (buildPriceMap []) "before" = none ∧
    findNearest (allTimestampsOf (buildPriceMap [])
        (buildPriceMap [rawPoint 10 1, rawPoint 20 2])) 10 (buildPriceMap []) "after" = none ∧
    (timeAlignPriceData [] [rawPoint 10 1, rawPoint 20 2]).1 = [] ∧
    (timeAlignPriceData [] [rawPoint 10 1, rawPoint 20 2]).2.map (fun p => p.timestamp) =
      [10, 20] :=
  ⟨rfl, rfl, rfl, rfl, rfl⟩

/-- C4 amended: in the interpolation pass each series is handled
independently and the bounds returned by `findNearest` are tested with
JavaScript truthiness, so the epoch timestamp 0 counts as a missing bound.
Per union timestamp and series: the exact point when present; the linear
interpolation `p_before + (p_after - p_before) * (t - t_before) /
(t_after - t_before)` flagged `interpolated` when both bounds exist and are
non-zero; a single non-zero bound used verbatim; and when no truthy bound
exists (no bound at all, or only the epoch-0 one) the timestamp is dropped
from that series' output only — the other series still emits its exact
point at that timestamp whenever it has one. -/
theorem interpolation_pass_amended :
    (∀ (s1 s2 : List PricePoint) (ts : List Nat) (m1 m2 : List (Nat × PricePoint)),
      interpolateMissingData s1 s2 ts m1 m2 =
        (ts.filterMap (alignPointAt m1 ts), ts.filterMap (alignPointAt m2 ts))) ∧
    (∀ (m : List (Nat × PricePoint)) (ts : List Nat) (t : Nat) (p : PricePoint),
      mapGet m t = some p → alignPointAt m ts t = some p) ∧
    (∀ (m : List (Nat × PricePoint)) (ts : List Nat) (t b a : Nat) (pb pa : PricePoint),
      mapGet m t = none →
      findNearest ts t m "before" = some b → findNearest ts t m "after" = some a →
      b ≠ 0 → a ≠ 0 →
      mapGet m b = some pb → mapGet m a = some pa →
      alignPointAt m ts t = some ⟨pb.price + (pa.price - pb.price) *
        (((t : ℝ) - (b : ℝ)) / ((a : ℝ) - (b : ℝ))), t, true⟩) ∧
    (∀ (m : List (Nat × PricePoint)) (ts : List Nat) (t b : Nat),
      mapGet m t = none → findNearest ts t m "before" = some b → b ≠ 0 →
      (findNearest ts t m "after" = none ∨ findNearest ts t m "after" = some 0) →
      alignPointAt m ts t = mapGet m b) ∧
    (∀ (m : List (Nat × PricePoint)) (ts : List Nat) (t a : Nat),
      mapGet m t = none →
      (findNearest ts t m "before" = none ∨ findNearest ts t m "before" = some 0) →
      findNearest ts t m "after" = some a → a ≠ 0 →
      alignPointAt m ts t = mapGet m a) ∧
    (∀ (m : List (Nat × PricePoint)) (ts : List Nat) (t : Nat),
      mapGet m t = none →
      (findNearest ts t m "before" = none ∨ findNearest ts t m "before" = some 0) →
      (findNearest ts t m "after" = none ∨ findNearest ts t m "after" = some 0) →
      alignPointAt m ts t = none) ∧
    (∀ (s1 s2 : List PricePoint) (t : Nat) (p : PricePoint),
      t ∈ allTimestampsOf (buildPriceMap s1) (buildPriceMap s2) →
      mapGet (buildPriceMap s2) t = some p →
      p ∈ (interpolateMissingData s1 s2 (allTimestampsOf (buildPriceMap s1) (buildPriceMap s2))
          (buildPriceMap s1) (buildPriceMap s2)).2) := by
  refine ⟨?_, ?_, ?_, ?_, ?_, ?_, ?_⟩
  · intro s1 s2 ts m1 m2
    unfold interpolateMissingData
    exact interpGo_eq_filterMap ts m1 m2 ts
  · intro m ts t p hget
    unfold alignPointAt
    rw [hget]
  · intro m ts t b a pb pa hget hb ha hb0 ha0 hpb hpa
    unfold alignPointAt
    simp [hget, hb, ha, hb0, ha0, hpb, hpa]
  · intro m ts t b hget hb hb0 hcase
    unfold alignPointAt
    rcases hcase with ha | ha <;> simp [hget, hb, ha, hb0]
  · intro m ts t a hget hcase ha ha0
    unfold alignPointAt
    rcases hcase with hb | hb <;> simp [hget, hb, ha, ha0]
  · intro m ts t hget hbcase hacase
    unfold alignPointAt
    rcases hbcase with hb | hb <;> rcases hacase with ha | ha <;> simp [hget, hb, ha]
  · intro s1 s2 t p ht hget
    unfold interpolateMissingData
    rw [interpGo_eq_filterMap]
    show p ∈ ((allTimestampsOf (buildPriceMap s1) (buildPriceMap s2)).filterMap
      (alignPointAt (buildPriceMap s2)
        (allTimestampsOf (buildPriceMap s1) (buildPriceMap s2))))
    refine List.mem_filterMap.mpr ⟨t, ht, ?_⟩
    unfold alignPointAt
    rw [hget]

/-- C4 amended, witness: with series `[(t=30)]` against `[(t=10), (t=50)]`,
at union timestamp 50 the first series has no exact point, a truthy earlier
bound at 30 and no later bound, so the bound's point is used verbatim. -/
theorem interpolation_pass_amended_witness :
    (mapGet (buildPriceMap [rawPoint 30 1]) 50 = none ∧
      findNearest (allTimestampsOf (buildPriceMap [rawPoint 30 1])
          (buildPriceMap [rawPoint 10 2, rawPoint 50 3])) 50
        (buildPriceMap [rawPoint 30 1]) "before" = some 30 ∧
      (30 : Nat) ≠ 0 ∧
      findNearest (allTimestampsOf (buildPriceMap [rawPoint 30 1])
          (buildPriceMap [rawPoint 10 2, rawPoint 50 3])) 50
        (buildPriceMap [rawPoint 30 1]) "after" = none) ∧
    alignPointAt (buildPriceMap [rawPoint 30 1])
        (allTimestampsOf (buildPriceMap [rawPoint 30 1])
          (buildPriceMap [rawPoint 10 2, rawPoint 50 3])) 50 =
      mapGet (buildPriceMap [rawPoint 30 1]) 30 :=
  ⟨⟨rfl, rfl, by decide, rfl⟩,
   interpolation_pass_amended.2.2.2.1 (buildPriceMap [rawPoint 30 1])
     (allTimestampsOf (buildPriceMap [rawPoint 30 1])
       (buildPriceMap [rawPoint 10 2, rawPoint 50 3])) 50 30 rfl rfl (by decide)
     (Or.inl rfl)⟩

/-- C5 counterexample: with series `[(t=30)]` against `[(t=10), (t=50)]` the
interpolation pass reuses the single real point of series 1 verbatim at
every union timestamp, so the first output carries the timestamp 30 three
times — even though both inputs had pairwise distinct timestamps. -/
theorem alignment_duplicate_timestamps_counterexample :
    ((timeAlignPriceData [rawPoint 30 1] [rawPoint 10 2, rawPoint 50 3]).1.map
        (fun p => p.timestamp) = [30, 30, 30]) ∧
    ¬ ((timeAlignPriceData [rawPoint 30 1] [rawPoint 10 2, rawPoint 50 3]).1.map
        (fun p => p.timestamp)).Nodup ∧
    (([rawPoint 30 1] : List PricePoint).map (fun p => p.timestamp)).Nodup ∧
    (([rawPoint 10 2, rawPoint 50 3] : List PricePoint).map (fun p => p.timestamp)).Nodup := by
  have h : (timeAlignPriceData [rawPoint 30 1] [rawPoint 10 2, rawPoint 50 3]).1.map
      (fun p => p.timestamp) = [30, 30, 30] := rfl
  exact ⟨h, by rw [h]; decide, by decide, by decide⟩

/-- C5 amended: when the aligner answers from the intersection pass (union
of size at least 2 and at least 2 common timestamps), no two points in the
same output series share a timestamp; in the degenerate and interpolation
fallbacks duplicates can survive or arise. -/
theorem intersection_pass_timestamps_nodup (s1 s2 : List PricePoint)
    (hunion : 2 ≤ (allTimestampsOf (buildPriceMap s1) (buildPriceMap s2)).length)
    (hint : ¬ (((allTimestampsOf (buildPriceMap s1) (buildPriceMap s2)).filter
        (fun t => mapHas (buildPriceMap s1) t && mapHas (buildPriceMap s2) t)).filterMap
          (fun t => mapGet (buildPriceMap s1) t)).length < 2) :
    ((timeAlignPriceData s1 s2).1.map (fun p => p.timestamp)).Nodup ∧
    ((timeAlignPriceData s1 s2).2.map (fun p => p.timestamp)).Nodup := by
  have hnot : ¬ (allTimestampsOf (buildPriceMap s1) (buildPriceMap s2)).length ≤ 1 := by
    omega
  have key : ∀ t ∈ (allTimestampsOf (buildPriceMap s1) (buildPriceMap s2)).filter
      (fun t => mapHas (buildPriceMap s1) t && mapHas (buildPriceMap s2) t),
      mapHas (buildPriceMap s1) t = true ∧ mapHas (buildPriceMap s2) t = true := by
    intro t ht
    have hp := (List.mem_filter.mp ht).2
    exact ⟨(Bool.and_eq_true_iff.mp hp).1, (Bool.and_eq_true_iff.mp hp).2⟩
  have hnd : ((allTimestampsOf (buildPriceMap s1) (buildPriceMap s2)).filter
      (fun t => mapHas (buildPriceMap s1) t && mapHas (buildPriceMap s2) t)).Nodup :=
    (nodup_allTimestampsOf _ _).filter _
  simp only [timeAlignPriceData]
  rw [if_neg hnot, if_neg hint]
  constructor
  · show ((((allTimestampsOf (buildPriceMap s1) (buildPriceMap s2)).filter
        (fun t => mapHas (buildPriceMap s1) t && mapHas (buildPriceMap s2) t)).filterMap
          (fun t => mapGet (buildPriceMap s1) t)).map (fun p => p.timestamp)).Nodup
    rw [map_timestamp_filterMap_get (goodMap_buildPriceMap s1) _ (fun t ht => (key t ht).1)]
    exact hnd
  · show ((((allTimestampsOf (buildPriceMap s1) (buildPriceMap s2)).filter
        (fun t => mapHas (buildPriceMap s1) t && mapHas (buildPriceMap s2) t)).filterMap
          (fun t => mapGet (buildPriceMap s2) t)).map (fun p => p.timestamp)).Nodup
    rw [map_timestamp_filterMap_get (goodMap_buildPriceMap s2) _ (fun t ht => (key t ht).2)]
    exact hnd

/-- C5 amended, witness: identical two-point series at instants 10 and 20
take the intersection pass and the outputs have pairwise distinct
timestamps. -/
theorem intersection_pass_timestamps_nodup_witness :
    (2 ≤ (allTimestampsOf (buildPriceMap [rawPoint 10 1, rawPoint 20 2])
        (buildPriceMap [rawPoint 10 1, rawPoint 20 2])).length ∧
      ¬ (((allTimestampsOf (buildPriceMap [rawPoint 10 1, rawPoint 20 2])
          (buildPriceMap [rawPoint 10 1, rawPoint 20 2])).filter
        (fun t => mapHas (buildPriceMap [rawPoint 10 1, rawPoint 20 2]) t &&
          mapHas (buildPriceMap [rawPoint 10 1, rawPoint 20 2]) t)).filterMap
          (fun t => mapGet (buildPriceMap [rawPoint 10 1, rawPoint 20 2]) t)).length < 2) ∧
    ((timeAlignPriceData [rawPoint 10 1, rawPoint 20 2]
        [rawPoint 10 1, rawPoint 20 2]).1.map (fun p => p.timestamp)).Nodup :=
  ⟨⟨by decide, by decide⟩,
   (intersection_pass_timestamps_nodup [rawPoint 10 1, rawPoint 20 2]
     [rawPoint 10 1, rawPoint 20 2] (by decide) (by decide)).1⟩

end StockApi
